import Mathlib

/-!
Shallow embedding of the roomserver event-ingestion pipeline of
`roomserver/internal/input/input_events.go` (Dendrite).

External collaborators (the typed database, the federation API, the auth
helpers, the state-resolution engine, the forward-extremity updater and the
output sink) are modelled as an oracle environment `Env`: each call site in
the Go source becomes a consultation of the corresponding oracle function,
and observable effects (store reads, federation queries, persisted events,
state bindings, emitted outputs) are accumulated in an explicit `Trace`.
The control flow of `processRoomEvent`, `checkForMissingAuthEvents`,
`checkForMissingPrevEvents` and `calculateAndSetState` is translated
branch-for-branch from the Go source.
-/

set_option maxHeartbeats 1000000

deriving instance DecidableEq for Except

abbrev EventID := String
abbrev EventNID := Nat
abbrev StateSnapshotNID := Nat
abbrev RoomNID := Nat
abbrev Err := String

/-- Event-ID formats of gomatrixserverlib: room versions 1 and 2 use the
legacy server-assigned format (`v1`), version 3 uses base64 hashes (`v2`),
versions 4+ use URL-safe base64 hashes (`v3`). -/
inductive EventIDFormat
  | v1
  | v2
  | v3
deriving DecidableEq, Repr

/-- Translation of `gomatrixserverlib.RoomVersion.EventIDFormat`: maps a
room-version string to its event-ID format, failing on unsupported
versions. -/
def eventIDFormatOf : String → Except Err EventIDFormat
  | "1" => .ok .v1
  | "2" => .ok .v1
  | "3" => .ok .v2
  | "4" => .ok .v3
  | "5" => .ok .v3
  | "6" => .ok .v3
  | v => .error ("unsupported room version: " ++ v)

/-- Translation of a parsed `gomatrixserverlib.Event`: the fields the ingest
pipeline reads. The SHA-256 reference hash is modelled as a number. -/
structure Event where
  eventID : EventID
  roomID : String
  eventType : String
  sender : String
  stateKey : Option String
  authEventIDs : List EventID
  prevEventIDs : List EventID
  sha256 : Nat
deriving DecidableEq, Repr

/-- Translation of `gomatrixserverlib.HeaderedEvent`: an event paired with
its room version. -/
structure HeaderedEvent where
  event : Event
  roomVersion : String
deriving DecidableEq, Repr

/-- Translation of the roomserver input kinds `api.KindNew`, `api.KindOld`,
`api.KindOutlier`. -/
inductive EventKind
  | new
  | old
  | outlier
deriving DecidableEq, Repr

/-- Translation of `api.InputRoomEvent`. -/
structure InputRoomEvent where
  kind : EventKind
  event : HeaderedEvent
  authEventIDs : List EventID
  stateEventIDs : List EventID
  hasState : Bool
  sendAsServer : String
  transactionID : Option String
deriving DecidableEq, Repr

/-- Translation of `types.StateEntry`: a state-key-tuple NID paired with the
event NID holding that tuple. -/
structure StateEntry where
  stateKeyTupleNID : Nat
  eventNID : EventNID
deriving DecidableEq, Repr

/-- Translation of `types.StateAtEvent`: the state immediately before an
event, as a snapshot NID, plus the `Overwrite` flag. -/
structure StateAtEvent where
  eventNID : EventNID
  beforeStateSnapshotNID : StateSnapshotNID
  overwrite : Bool
deriving DecidableEq, Repr

/-- Translation of the part of `types.RoomInfo` the ingester reads. -/
structure RoomInfo where
  roomNID : RoomNID
deriving DecidableEq, Repr

/-- Translation of the output-event variants of `api.OutputEvent` used by
`processRoomEvent` and (for `NewRoomEvent`) by the extremity updater. -/
inductive OutputEvent
  | newRoomEvent (event : Event) (sendAsServer : String)
      (transactionID : Option String) (rewritesState : Bool)
  | oldRoomEvent (event : HeaderedEvent)
  | redactedEvent (redactedEventID : EventID) (redactedBecause : HeaderedEvent)
deriving DecidableEq, Repr

/-- Observable effects of one ingest call: counts of store reads and
federation queries, the events persisted via `StoreEvent` (with their auth
NIDs and rejection flag), the snapshots persisted via `AddState`, the
bindings written via `SetState`, the output entries emitted (in order),
whether the forward extremities were updated, and whether the soft-fail
check was consulted. -/
structure Trace where
  reads : Nat
  fedQueries : Nat
  stored : List (Event × List EventNID × Bool)
  addStates : List (RoomNID × List StateEntry)
  setStates : List (EventNID × StateSnapshotNID)
  outputs : List OutputEvent
  updatedExtremities : Bool
  softFailChecked : Bool
deriving DecidableEq, Repr

def Trace.empty : Trace :=
  ⟨0, 0, [], [], [], [], false, false⟩

def Trace.append (a b : Trace) : Trace :=
  ⟨a.reads + b.reads, a.fedQueries + b.fedQueries, a.stored ++ b.stored,
   a.addStates ++ b.addStates, a.setStates ++ b.setStates,
   a.outputs ++ b.outputs, a.updatedExtremities || b.updatedExtremities,
   a.softFailChecked || b.softFailChecked⟩

def Trace.read : Trace :=
  { Trace.empty with reads := 1 }

def Trace.fedQuery : Trace :=
  { Trace.empty with fedQueries := 1 }

def Trace.storeOne (ev : Event) (authNIDs : List EventNID) (rejected : Bool) : Trace :=
  { Trace.empty with stored := [(ev, authNIDs, rejected)] }

def Trace.addStateOne (room : RoomNID) (entries : List StateEntry) : Trace :=
  { Trace.empty with addStates := [(room, entries)] }

def Trace.setStateOne (nid : EventNID) (snap : StateSnapshotNID) : Trace :=
  { Trace.empty with setStates := [(nid, snap)] }

def Trace.output (o : OutputEvent) : Trace :=
  { Trace.empty with outputs := [o] }

def Trace.softFailCheck : Trace :=
  { Trace.empty with softFailChecked := true }

/-- Oracle view of the typed storage interface (`storage.Database`) as the
ingester consumes it.  Each function gives the reply of the store to one
call with the given arguments; a deterministic, stateless store suffices
for the properties proved here.  `storeEvent` returns
`(EventNID, StateAtEvent, redactionEvent, redactedEventID)` as in the Go
signature (the leading event NID is discarded by the ingester). -/
structure DB where
  eventsFromIDs : List EventID → Except Err (List Event)
  eventNIDs : List EventID → Except Err (List (EventID × EventNID))
  storeEvent : Event → List EventNID → Bool →
      Except Err (EventNID × StateAtEvent × Event × EventID)
  roomInfo : String → Except Err (Option RoomInfo)
  stateEntriesForEventIDs : List EventID → Except Err (List StateEntry)
  addState : RoomNID → List StateEntry → Except Err StateSnapshotNID
  setState : EventNID → StateSnapshotNID → Except Err Unit
  getMembershipEventNIDsForRoom : RoomNID → Bool → Bool → Except Err (List EventNID)

/-- Oracle environment for the remaining collaborators:
`queryEventAuthFromFederation` yields the federation auth chain already in
the reverse-topological order the library sort produces;
`checkAuthEvents` and `checkForSoftFail` are the auth helpers (each returns
its value together with an optional error, as the Go multi-value returns
do); `redactEvent` is `eventutil.RedactEvent`;
`calculateAndStoreStateBeforeEvent` is the state-resolution engine; and
`updateLatestEvents` / `writeOutputEvents` report success or failure of the
extremity updater and of the output sink. -/
structure Env where
  db : DB
  queryEventAuthFromFederation : String → EventID → Except Err (List Event)
  checkAuthEvents : HeaderedEvent → List EventID → List EventNID × Option Err
  checkForSoftFail : HeaderedEvent → List EventID → Bool × Option Err
  redactEvent : Event → Event → Except Err Event
  calculateAndStoreStateBeforeEvent : Event → Bool → Except Err StateSnapshotNID
  updateLatestEvents : RoomInfo → StateAtEvent → Event → String → Option String → Bool →
      Except Err Unit
  writeOutputEvents : String → List OutputEvent → Except Err Unit

/-- Lookup in the in-memory auth-event cache (a Go `map[string]EventNID`),
modelled as an association list where insertion prepends. -/
def lookupCache (cache : List (EventID × EventNID)) (id : EventID) : Option EventNID :=
  (cache.find? (fun p => p.1 == id)).map (fun p => p.2)

/-- Modelled from the spec: `types.DeduplicateStateEntries` (roomserver
types package, not among the provided sources) — "State entries are
deduplicated by `StateKeyTupleNID` — a state snapshot contains at most one
entry per tuple."  Keeps the first entry for each tuple NID. -/
def dedupStateEntriesAux : List StateEntry → List Nat → List StateEntry
  | [], _ => []
  | e :: rest, seen =>
    if e.stateKeyTupleNID ∈ seen then dedupStateEntriesAux rest seen
    else e :: dedupStateEntriesAux rest (e.stateKeyTupleNID :: seen)

def deduplicateStateEntries (l : List StateEntry) : List StateEntry :=
  dedupStateEntriesAux l []

/-- Translation of `checkForMissingPrevEvents`: the prev-event backfill hook
is a no-op in the source (it returns `nil` unconditionally). -/
def checkForMissingPrevEvents (_input : InputRoomEvent) : Except Err Unit :=
  .ok ()

/-- Translation of the loop body of `checkForMissingAuthEvents` over the
federation-returned auth chain: for each event, look up the auth-ancestor
NIDs not in the cache from the store, collect `cache[authEventID]` for
every declared ancestor (the Go map read yields the zero NID for a missing
key), compare lengths, and persist via `StoreEvent` with
`isRejected = false`.  The stored event's own NID is discarded, as in the
source. -/
def storeAuthChain (db : DB) : List Event → List (EventID × EventNID) →
    Except Err Unit × Trace
  | [], _ => (.ok (), Trace.empty)
  | ev :: rest, cache =>
    let needed := ev.authEventIDs.filter (fun id => (lookupCache cache id).isNone)
    let fetched : Except Err (List (EventID × EventNID)) × Trace :=
      if needed.isEmpty then (.ok [], Trace.empty)
      else (db.eventNIDs needed, Trace.read)
    match fetched with
    | (.error e, t) => (.error ("r.DB.EventNIDs: " ++ e), t)
    | (.ok newNIDs, t1) =>
      let cache1 := newNIDs.foldl (fun c p => p :: c) cache
      let authEventNIDsForEvent :=
        ev.authEventIDs.map (fun id => (lookupCache cache1 id).getD 0)
      if authEventNIDsForEvent.length ≠ ev.authEventIDs.length then
        (.error ("missing auth event NIDs for event " ++ ev.eventID), t1)
      else
        match db.storeEvent ev authEventNIDsForEvent false with
        | .error e => (.error ("r.DB.StoreEvent: " ++ e), t1)
        | .ok _ =>
          let t2 := Trace.append t1 (Trace.storeOne ev authEventNIDsForEvent false)
          match storeAuthChain db rest cache1 with
          | (res, t3) => (res, Trace.append t2 t3)

/-- Translation of `checkForMissingAuthEvents`: return immediately when the
event declares no auth ancestors; otherwise resolve the declared IDs with
the store, and if any are missing, fetch the auth chain from federation and
run `storeAuthChain` over it. -/
def checkForMissingAuthEvents (env : Env) (event : HeaderedEvent)
    (cache : List (EventID × EventNID)) : Except Err Unit × Trace :=
  let authEventIDs := event.event.authEventIDs
  if authEventIDs.isEmpty then (.ok (), Trace.empty)
  else
    match env.db.eventNIDs authEventIDs with
    | .error e => (.error ("r.DB.EventNIDs: " ++ e), Trace.read)
    | .ok known =>
      let cache1 := known.foldl (fun c p => p :: c) cache
      let missing := authEventIDs.filter (fun id => (lookupCache known id).isNone)
      if missing.isEmpty then (.ok (), Trace.read)
      else
        match env.queryEventAuthFromFederation event.event.roomID event.event.eventID with
        | .error e =>
          (.error ("r.FSAPI.QueryEventAuthFromFederation: " ++ e),
           Trace.append Trace.read Trace.fedQuery)
        | .ok fetchedEvents =>
          match storeAuthChain env.db fetchedEvents cache1 with
          | (res, t) => (res, Trace.append (Trace.append Trace.read Trace.fedQuery) t)

/-- Translation of the shared tail of `calculateAndSetState`: bind the
computed snapshot to the event with `SetState`. -/
def setStateStep (db : DB) (sae : StateAtEvent) (t : Trace) :
    Except Err Unit × StateAtEvent × Trace :=
  match db.setState sae.eventNID sae.beforeStateSnapshotNID with
  | .error e => (.error ("r.DB.SetState: " ++ e), sae, t)
  | .ok _ =>
    (.ok (), sae, Trace.append t (Trace.setStateOne sae.eventNID sae.beforeStateSnapshotNID))

/-- Translation of the caller-supplied-state path of `calculateAndSetState`
after the `Overwrite` flag has been settled: resolve the supplied
state-event IDs to entries, deduplicate them, persist them as a snapshot,
and bind it.  `sae2` carries the settled `Overwrite` flag and `tm` the
trace of the membership query. -/
def calcSuppliedState (env : Env) (input : InputRoomEvent) (roomInfo : RoomInfo)
    (sae2 : StateAtEvent) (tm : Trace) : Except Err Unit × StateAtEvent × Trace :=
  match env.db.stateEntriesForEventIDs input.stateEventIDs with
  | .error e =>
    (.error ("r.DB.StateEntriesForEventIDs: " ++ e), sae2, Trace.append tm Trace.read)
  | .ok entries0 =>
    match env.db.addState roomInfo.roomNID (deduplicateStateEntries entries0) with
    | .error e => (.error ("r.DB.AddState: " ++ e), sae2, Trace.append tm Trace.read)
    | .ok nid =>
      setStateStep env.db { sae2 with beforeStateSnapshotNID := nid }
        (Trace.append (Trace.append tm Trace.read)
          (Trace.addStateOne roomInfo.roomNID (deduplicateStateEntries entries0)))

/-- Translation of `calculateAndSetState`.  With `HasState` and not
rejected: `Overwrite` is first set to `true` and replaced by "no joined
local members" when the membership query succeeds (the query's error is
ignored, leaving `Overwrite = true`), then the caller-supplied state is
resolved, deduplicated, persisted and bound.  Otherwise `Overwrite := false`
and the state-resolution engine computes the snapshot.  Both paths end by
binding the snapshot with `SetState`.  Returns the Go error, the final
(mutated) `StateAtEvent` and the trace delta. -/
def calculateAndSetState (env : Env) (input : InputRoomEvent) (roomInfo : RoomInfo)
    (sae : StateAtEvent) (event : Event) (isRejected : Bool) :
    Except Err Unit × StateAtEvent × Trace :=
  if input.hasState ∧ ¬isRejected then
    match env.db.getMembershipEventNIDsForRoom roomInfo.roomNID true true with
    | .ok joinEventNIDs =>
      calcSuppliedState env input roomInfo
        { sae with overwrite := joinEventNIDs.isEmpty } Trace.read
    | .error _ =>
      calcSuppliedState env input roomInfo { sae with overwrite := true } Trace.read
  else
    match env.calculateAndStoreStateBeforeEvent event isRejected with
    | .error e =>
      (.error ("roomState.CalculateAndStoreStateBeforeEvent: " ++ e),
       { sae with overwrite := false }, Trace.empty)
    | .ok nid =>
      setStateStep env.db
        { sae with overwrite := false, beforeStateSnapshotNID := nid } Trace.empty

/-- Modelled from the spec: the effect of a successful
`r.updateLatestEvents` call (forward-extremity updater, §4.6; its body is
outside the provided sources) — it updates the room's forward extremities
and emits a `NewRoomEvent` output carrying the event, the send-as-server,
the transaction ID and the rewrites-state flag. -/
def updateLatestEventsTrace (event : Event) (sendAsServer : String)
    (transactionID : Option String) (rewritesState : Bool) : Trace :=
  { Trace.empty with
    updatedExtremities := true,
    outputs := [OutputEvent.newRoomEvent event sendAsServer transactionID rewritesState] }

/-- Modelled from the spec: the effect of a successful
`r.WriteOutputEvents` call (output sink, §2/§6; its body is outside the
provided sources) — it appends the given entries to the room's ordered
output log. -/
def writeOutputEventsTrace (outs : List OutputEvent) : Trace :=
  { Trace.empty with outputs := outs }

/-- Translation of the tail of `processRoomEvent` after the state snapshot
is ensured: early return with the rejection error for rejected or
soft-failed events, dispatch on the kind (`updateLatestEvents` for `New`,
an `OldRoomEvent` output for `Old` — the latter carries the original
headered input event), then emit the `RedactedEvent` output when storing
reported a non-empty `redactedEventID`. -/
def finishEvent (env : Env) (input : InputRoomEvent) (headered : HeaderedEvent)
    (event1 : Event) (roomInfo : RoomInfo) (sae : StateAtEvent)
    (isRejected softfail : Bool) (rejectionErr : Option Err)
    (redactionEvent : Event) (redactedEventID : EventID) :
    (String × Option Err) × Trace :=
  if isRejected || softfail then ((event1.eventID, rejectionErr), Trace.empty)
  else
    let dispatch : Except Err Unit × Trace :=
      match input.kind with
      | .new =>
        match env.updateLatestEvents roomInfo sae event1 input.sendAsServer
            input.transactionID input.hasState with
        | .error e => (.error ("r.updateLatestEvents: " ++ e), Trace.empty)
        | .ok _ =>
          (.ok (), updateLatestEventsTrace event1 input.sendAsServer
            input.transactionID input.hasState)
      | .old =>
        match env.writeOutputEvents event1.roomID [OutputEvent.oldRoomEvent headered] with
        | .error e => (.error ("r.WriteOutputEvents (old): " ++ e), Trace.empty)
        | .ok _ => (.ok (), writeOutputEventsTrace [OutputEvent.oldRoomEvent headered])
      | .outlier => (.ok (), Trace.empty)
    match dispatch with
    | (.error e, t4) => (("", some e), t4)
    | (.ok _, t4) =>
      if redactedEventID ≠ "" then
        match env.writeOutputEvents event1.roomID
            [OutputEvent.redactedEvent redactedEventID ⟨redactionEvent, headered.roomVersion⟩] with
        | .error e => (("", some ("r.WriteOutputEvents (redactions): " ++ e)), t4)
        | .ok _ =>
          ((event1.eventID, none),
           Trace.append t4 (writeOutputEventsTrace
             [OutputEvent.redactedEvent redactedEventID ⟨redactionEvent, headered.roomVersion⟩]))
      else ((event1.eventID, none), t4)

/-- Translation of lines 175–182 of `processRoomEvent`: when `StoreEvent`
reported no before-state snapshot (`BeforeStateSnapshotNID == 0`), compute
and bind one via `calculateAndSetState`; otherwise keep the reported
snapshot. -/
def ensureStateSnapshot (env : Env) (input : InputRoomEvent) (roomInfo : RoomInfo)
    (sae : StateAtEvent) (event1 : Event) (isRejected : Bool) :
    Except Err Unit × StateAtEvent × Trace :=
  if sae.beforeStateSnapshotNID = 0 then
    calculateAndSetState env input roomInfo sae event1 isRejected
  else (.ok (), sae, Trace.empty)

/-- Translation of the non-outlier tail of `processRoomEvent`: look up the
room info (its absence or failure is fatal), ensure the before-state
snapshot (a calculation error is fatal unless the input kind is `Old`,
where it is only logged), then run the finishing steps. -/
def stateAndFinish (env : Env) (input : InputRoomEvent) (headered : HeaderedEvent)
    (event1 : Event) (stateAtEvent : StateAtEvent) (isRejected softfail : Bool)
    (rejectionErr : Option Err) (redactionEvent : Event) (redactedEventID : EventID) :
    (String × Option Err) × Trace :=
  match env.db.roomInfo event1.roomID with
  | .error e => (("", some ("r.DB.RoomInfo: " ++ e)), Trace.read)
  | .ok none => (("", some ("r.DB.RoomInfo missing for room " ++ event1.roomID)), Trace.read)
  | .ok (some roomInfo) =>
    match ensureStateSnapshot env input roomInfo stateAtEvent event1 isRejected with
    | (calcRes, sae1, t3) =>
      match calcRes with
      | .error e =>
        if input.kind = .old then
          match finishEvent env input headered event1 roomInfo sae1 isRejected softfail
              rejectionErr redactionEvent redactedEventID with
          | (r, t4) => (r, Trace.append (Trace.append Trace.read t3) t4)
        else
          (("", some ("r.calculateAndSetState: " ++ e)), Trace.append Trace.read t3)
      | .ok _ =>
        match finishEvent env input headered event1 roomInfo sae1 isRejected softfail
            rejectionErr redactionEvent redactedEventID with
        | (r, t4) => (r, Trace.append (Trace.append Trace.read t3) t4)

/-- Translation of `processRoomEvent` after the outlier-dedup block:
resolve missing auth ancestors, run `CheckAuthEvents` (a failure sets
`isRejected` and is kept as the rejection error), run the prev-event hook,
run `CheckForSoftFail` for `New` inputs (its error is only logged), store
the event, apply the redaction when the stored event is itself the target
of a known redaction and is not rejected, return early for outliers, look
up the room info, ensure the before-state snapshot (a calculation error is
fatal except for `Old` inputs), and finish. -/
def ingest (env : Env) (input : InputRoomEvent) : (String × Option Err) × Trace :=
  match checkForMissingAuthEvents env input.event [] with
  | (.error e, t) => (("", some ("r.checkForMissingAuthEvents: " ++ e)), t)
  | (.ok _, tcm) =>
    match env.checkAuthEvents input.event input.authEventIDs with
    | (authEventNIDs, rejectionErr) =>
      match checkForMissingPrevEvents input with
      | .error e => (("", some ("r.checkForMissingPrevEvents: " ++ e)), tcm)
      | .ok _ =>
        match env.db.storeEvent input.event.event authEventNIDs rejectionErr.isSome with
        | .error e =>
          (("", some ("r.DB.StoreEvent: " ++ e)),
           Trace.append tcm
             (if input.kind = .new then Trace.softFailCheck else Trace.empty))
        | .ok (_, stateAtEvent, redactionEvent, redactedEventID) =>
          match (if ¬rejectionErr.isSome ∧ redactedEventID = input.event.event.eventID then
              env.redactEvent redactionEvent input.event.event
            else .ok input.event.event) with
          | .error e =>
            (("", some ("eventutil.RedactEvent: " ++ e)),
             Trace.append
               (Trace.append tcm
                 (if input.kind = .new then Trace.softFailCheck else Trace.empty))
               (Trace.storeOne input.event.event authEventNIDs rejectionErr.isSome))
          | .ok event1 =>
            if input.kind = .outlier then
              ((event1.eventID, none),
               Trace.append
                 (Trace.append tcm
                   (if input.kind = .new then Trace.softFailCheck else Trace.empty))
                 (Trace.storeOne input.event.event authEventNIDs rejectionErr.isSome))
            else
              match stateAndFinish env input input.event event1 stateAtEvent
                  rejectionErr.isSome
                  (if input.kind = .new then
                    (env.checkForSoftFail input.event input.stateEventIDs).1
                  else false)
                  rejectionErr redactionEvent redactedEventID with
              | (r, t2) =>
                (r, Trace.append
                  (Trace.append
                    (Trace.append tcm
                      (if input.kind = .new then Trace.softFailCheck else Trace.empty))
                    (Trace.storeOne input.event.event authEventNIDs rejectionErr.isSome))
                  t2)

/-- Translation of `processRoomEvent`: for outlier inputs, first look the
event up by ID; when exactly one event comes back, skip re-processing —
immediately for content-derived ID formats, and only on matching SHA-256
reference hashes for the legacy v1 format (a hash mismatch, a format error,
or any other lookup outcome falls through to the full ingest). -/
def processRoomEvent (env : Env) (input : InputRoomEvent) : (String × Option Err) × Trace :=
  if input.kind = .outlier then
    let event := input.event.event
    match env.db.eventsFromIDs [event.eventID] with
    | .ok [ev0] =>
      match eventIDFormatOf input.event.roomVersion with
      | .ok .v1 =>
        if event.sha256 = ev0.sha256 then ((event.eventID, none), Trace.read)
        else
          match ingest env input with
          | (r, t) => (r, Trace.append Trace.read t)
      | .ok _ => ((event.eventID, none), Trace.read)
      | .error _ =>
        match ingest env input with
        | (r, t) => (r, Trace.append Trace.read t)
    | _ =>
      match ingest env input with
      | (r, t) => (r, Trace.append Trace.read t)
  else ingest env input

/-!
Concrete fixtures: a benign base environment and small events, specialised
per property below by overriding single oracles.  They drive the concrete
evaluations of the embedded code.
-/

/-- Placeholder event used where the store has to return some event value
that the ingester does not inspect. -/
def dummyEvent : Event :=
  ⟨"", "", "", "", none, [], [], 0⟩

/-- Benign store: every call succeeds with simple values; `storeEvent`
reports an existing before-state snapshot (NID 1) and no redaction. -/
def baseDB : DB where
  eventsFromIDs := fun _ => .error "not found"
  eventNIDs := fun _ => .ok []
  storeEvent := fun _ _ _ => .ok (1, ⟨1, 1, false⟩, dummyEvent, "")
  roomInfo := fun _ => .ok (some ⟨7⟩)
  stateEntriesForEventIDs := fun _ => .ok []
  addState := fun _ _ => .ok 5
  setState := fun _ _ => .ok ()
  getMembershipEventNIDsForRoom := fun _ _ _ => .ok []

/-- Benign environment: authorization passes, no soft-fail, redaction is the
identity, state resolution yields snapshot 9, the extremity updater and the
output sink succeed. -/
def baseEnv : Env where
  db := baseDB
  queryEventAuthFromFederation := fun _ _ => .error "unreachable"
  checkAuthEvents := fun _ _ => ([], none)
  checkForSoftFail := fun _ _ => (false, none)
  redactEvent := fun _ e => .ok e
  calculateAndStoreStateBeforeEvent := fun _ _ => .ok 9
  updateLatestEvents := fun _ _ _ _ _ _ => .ok ()
  writeOutputEvents := fun _ _ => .ok ()

/-- Event with no auth ancestors, used as a benign input event. -/
def evPlain : Event :=
  ⟨"$e1", "!room", "m.room.message", "@alice", none, [], [], 11⟩

/-- Chain event returned by federation whose single auth ancestor `$x` is
known neither to the cache nor to the store. -/
def evChainB : Event :=
  ⟨"$b", "!room", "m.room.member", "@alice", some "@alice", ["$x"], [], 22⟩

/-- Incoming event that declares the unknown auth ancestor `$b`. -/
def evTop : Event :=
  ⟨"$e2", "!room", "m.room.message", "@alice", none, ["$b"], [], 33⟩

/-- Environment for the missing-ancestor resolution scenario: the store
knows no events and federation returns the (incomplete) chain `[evChainB]`. -/
def envMissingAuth : Env :=
  { baseEnv with queryEventAuthFromFederation := fun _ _ => .ok [evChainB] }

/-- New-kind input carrying `evPlain` in a version-6 room. -/
def inputNew : InputRoomEvent :=
  ⟨.new, ⟨evPlain, "6"⟩, [], [], false, "srv", none⟩

/-- Old-kind input carrying `evPlain` in a version-6 room. -/
def inputOld : InputRoomEvent :=
  ⟨.old, ⟨evPlain, "6"⟩, [], [], false, "srv", none⟩

/-- Outlier-kind input carrying `evPlain` in a version-6 room. -/
def inputOutlier : InputRoomEvent :=
  ⟨.outlier, ⟨evPlain, "6"⟩, [], [], false, "srv", none⟩

/-- Outlier-kind input carrying `evPlain` in a version-1 room (legacy
server-assigned event IDs). -/
def inputOutlierV1 : InputRoomEvent :=
  ⟨.outlier, ⟨evPlain, "1"⟩, [], [], false, "srv", none⟩

/-- Environment in which `StoreEvent` reports no before-state snapshot and
the state-resolution engine fails. -/
def envOldCalcFail : Env :=
  { baseEnv with
    db := { baseDB with storeEvent := fun _ _ _ => .ok (1, ⟨1, 0, false⟩, dummyEvent, "") },
    calculateAndStoreStateBeforeEvent := fun _ _ => .error "state resolution failed" }

/-- Environment in which `StoreEvent` reports no before-state snapshot and
state resolution succeeds with snapshot 9. -/
def envSnapZero : Env :=
  { baseEnv with
    db := { baseDB with storeEvent := fun _ _ _ => .ok (1, ⟨1, 0, false⟩, dummyEvent, "") } }

/-- Environment in which the declared-auth check rejects every event. -/
def envReject : Env :=
  { baseEnv with checkAuthEvents := fun _ _ => ([], some "auth check failed") }

/-- Like `envReject`, but the store answers the outlier dedup lookup with an
empty list instead of an error. -/
def envRejectNoDedup : Env :=
  { envReject with db := { baseDB with eventsFromIDs := fun _ => .ok [] } }

/-- Environment in which the store already holds `evPlain` (same SHA-256
reference hash) under its event ID. -/
def envDedup : Env :=
  { baseEnv with db := { baseDB with eventsFromIDs := fun _ => .ok [evPlain] } }

/-- Stored twin of `evPlain` with a different SHA-256 reference hash. -/
def evPlainOtherHash : Event :=
  { evPlain with sha256 := 99 }

/-- Environment in which the store holds an event with `evPlain`'s ID but a
different SHA-256 reference hash. -/
def envDedupOtherHash : Env :=
  { baseEnv with db := { baseDB with eventsFromIDs := fun _ => .ok [evPlainOtherHash] } }

/-- Environment in which the soft-fail check reports `true` without error. -/
def envSoftFail : Env :=
  { baseEnv with checkForSoftFail := fun _ _ => (true, none) }

/-- Environment in which the soft-fail check reports `true` together with an
error. -/
def envSoftFailErr : Env :=
  { baseEnv with checkForSoftFail := fun _ _ => (true, some "soft fail check errored") }

/-- Supplied-state environment: three state entries (two sharing tuple NID
3) and one joined local member. -/
def envSupplied : Env :=
  { baseEnv with
    db := { baseDB with
      stateEntriesForEventIDs := fun _ => .ok [⟨3, 10⟩, ⟨3, 11⟩, ⟨4, 12⟩],
      getMembershipEventNIDsForRoom := fun _ _ _ => .ok [6] } }

/-- Supplied-state environment with no joined local members. -/
def envSuppliedEmptyRoom : Env :=
  { baseEnv with
    db := { baseDB with
      stateEntriesForEventIDs := fun _ => .ok [⟨3, 10⟩, ⟨3, 11⟩, ⟨4, 12⟩] } }

/-- New-kind input asserting caller-supplied state. -/
def inputHasState : InputRoomEvent :=
  ⟨.new, ⟨evPlain, "6"⟩, [], ["$s1", "$s2"], true, "srv", none⟩

/-- A redaction event. -/
def evRedactionR : Event :=
  ⟨"$r", "!room", "m.room.redaction", "@alice", none, [], [], 44⟩

/-- Marker value returned by the redaction oracle, distinguishable from the
stored event. -/
def evRedactedMark : Event :=
  { evPlain with eventID := "$redacted" }

/-- Environment in which storing an event reports the event itself as the
target of the known redaction `evRedactionR`, the declared-auth check
rejects, and the redaction oracle returns `evRedactedMark`. -/
def envRedactedRejected : Env :=
  { baseEnv with
    db := { baseDB with
      storeEvent := fun e _ _ => .ok (1, ⟨1, 1, false⟩, evRedactionR, e.eventID) },
    checkAuthEvents := fun _ _ => ([], some "auth check failed"),
    redactEvent := fun _ _ => .ok evRedactedMark }

/-- Like `envRedactedRejected` but with the declared-auth check passing. -/
def envRedactedOk : Env :=
  { envRedactedRejected with checkAuthEvents := fun _ _ => ([], none) }

/-- Like `envRedactedOk`, but the store answers the outlier dedup lookup
with an empty list. -/
def envRedactedOkNoDedup : Env :=
  { envRedactedOk with
    db := { envRedactedOk.db with eventsFromIDs := fun _ => .ok [] } }

/-- Environment whose store maps the auth-event ID `$b` to NID 2. -/
def envKnownB : Env :=
  { baseEnv with db := { baseDB with eventNIDs := fun _ => .ok [("$b", 2)] } }

/-- Environment in which storing an event reports that a different event
`$target` became redacted by `evRedactionR`. -/
def envRedactsOther : Env :=
  { baseEnv with
    db := { baseDB with
      storeEvent := fun _ _ _ => .ok (1, ⟨1, 1, false⟩, evRedactionR, "$target") } }

/-- Environment transformer for the soft-fail error-propagation property:
keeps the soft-fail boolean of `env` and replaces the error component of
`CheckForSoftFail` by `f`. -/
def setSoftFailErr (env : Env) (f : HeaderedEvent → List EventID → Option Err) : Env :=
  { env with checkForSoftFail := fun h s => ((env.checkForSoftFail h s).1, f h s) }

/-- Trace property: no outputs, no state writes, no extremity update and no
soft-fail check — everything the missing-ancestor resolver never does. -/
def Trace.quiet (t : Trace) : Prop :=
  t.outputs = [] ∧ t.setStates = [] ∧ t.addStates = [] ∧
  t.updatedExtremities = false ∧ t.softFailChecked = false

@[simp] theorem Trace.append_reads (a b : Trace) :
    (Trace.append a b).reads = a.reads + b.reads := rfl

@[simp] theorem Trace.append_fedQueries (a b : Trace) :
    (Trace.append a b).fedQueries = a.fedQueries + b.fedQueries := rfl

@[simp] theorem Trace.append_stored (a b : Trace) :
    (Trace.append a b).stored = a.stored ++ b.stored := rfl

@[simp] theorem Trace.append_addStates (a b : Trace) :
    (Trace.append a b).addStates = a.addStates ++ b.addStates := rfl

@[simp] theorem Trace.append_setStates (a b : Trace) :
    (Trace.append a b).setStates = a.setStates ++ b.setStates := rfl

@[simp] theorem Trace.append_outputs (a b : Trace) :
    (Trace.append a b).outputs = a.outputs ++ b.outputs := rfl

@[simp] theorem Trace.append_updatedExtremities (a b : Trace) :
    (Trace.append a b).updatedExtremities = (a.updatedExtremities || b.updatedExtremities) := rfl

@[simp] theorem Trace.append_softFailChecked (a b : Trace) :
    (Trace.append a b).softFailChecked = (a.softFailChecked || b.softFailChecked) := rfl


/-!
General lemmas about the effect traces of the embedded functions, shared by
the claim theorems below.
-/

@[simp] theorem Trace.quiet_empty : Trace.empty.quiet := by
  simp [Trace.quiet, Trace.empty]

@[simp] theorem Trace.quiet_read : Trace.read.quiet := by
  simp [Trace.quiet, Trace.read, Trace.empty]

@[simp] theorem Trace.quiet_fedQuery : Trace.fedQuery.quiet := by
  simp [Trace.quiet, Trace.fedQuery, Trace.empty]

@[simp] theorem Trace.quiet_storeOne (ev : Event) (nids : List EventNID) (b : Bool) :
    (Trace.storeOne ev nids b).quiet := by
  simp [Trace.quiet, Trace.storeOne, Trace.empty]

@[simp] theorem Trace.quiet_append (a b : Trace) :
    (Trace.append a b).quiet ↔ a.quiet ∧ b.quiet := by
  simp [Trace.quiet, Trace.append]
  tauto

theorem storeAuthChain_quiet (db : DB) (l : List Event) (cache : List (EventID × EventNID)) :
    (storeAuthChain db l cache).2.quiet := by
  induction l generalizing cache with
  | nil => simp [storeAuthChain]
  | cons ev rest ih =>
    unfold storeAuthChain
    by_cases hneed : (ev.authEventIDs.filter (fun id => (lookupCache cache id).isNone)).isEmpty
    · simp only [hneed, if_true]
      rw [if_neg (by simp)]
      split
      · simp
      · simp [ih]
    · simp only [hneed, if_false]
      split
      · next e t heq =>
        simp only [if_neg (Bool.false_ne_true)] at heq
        obtain ⟨h1, h2⟩ := Prod.mk.injEq .. |>.mp heq
        subst h2
        simp
      · next newNIDs t1 heq =>
        simp only [if_neg (Bool.false_ne_true)] at heq
        obtain ⟨h1, h2⟩ := Prod.mk.injEq .. |>.mp heq
        subst h2
        rw [if_neg (by simp)]
        split
        · simp
        · simp [ih]

theorem checkForMissingAuthEvents_quiet (env : Env) (event : HeaderedEvent)
    (cache : List (EventID × EventNID)) :
    (checkForMissingAuthEvents env event cache).2.quiet := by
  unfold checkForMissingAuthEvents
  by_cases hemp : event.event.authEventIDs.isEmpty
  · simp [hemp]
  · simp only [hemp, if_false]
    cases hdb : env.db.eventNIDs event.event.authEventIDs with
    | error e => simp
    | ok known =>
      by_cases hmiss : (event.event.authEventIDs.filter (fun id => (lookupCache known id).isNone)).isEmpty
      · simp [hmiss]
      · simp only [hmiss, if_false]
        cases hfed : env.queryEventAuthFromFederation event.event.roomID event.event.eventID with
        | error e => simp
        | ok fetchedEvents => simp [storeAuthChain_quiet]

theorem setStateStep_trace (db : DB) (sae : StateAtEvent) (t : Trace) :
    (setStateStep db sae t).2.2 = t ∨
    (setStateStep db sae t).2.2 =
      Trace.append t (Trace.setStateOne sae.eventNID sae.beforeStateSnapshotNID) := by
  unfold setStateStep
  split
  · left; rfl
  · right; rfl

theorem calcSuppliedState_trace (env : Env) (input : InputRoomEvent) (ri : RoomInfo)
    (sae2 : StateAtEvent) (tm : Trace) :
    (calcSuppliedState env input ri sae2 tm).2.2.outputs = tm.outputs ∧
    (calcSuppliedState env input ri sae2 tm).2.2.stored = tm.stored ∧
    (calcSuppliedState env input ri sae2 tm).2.2.fedQueries = tm.fedQueries ∧
    (calcSuppliedState env input ri sae2 tm).2.2.updatedExtremities = tm.updatedExtremities ∧
    (calcSuppliedState env input ri sae2 tm).2.2.softFailChecked = tm.softFailChecked := by
  unfold calcSuppliedState
  split
  · simp [Trace.append, Trace.read, Trace.empty]
  · split
    · simp [Trace.append, Trace.read, Trace.empty]
    · unfold setStateStep
      split
      · simp [Trace.append, Trace.read, Trace.empty, Trace.addStateOne]
      · simp [Trace.append, Trace.read, Trace.empty, Trace.addStateOne, Trace.setStateOne]

theorem calculateAndSetState_trace (env : Env) (input : InputRoomEvent) (ri : RoomInfo)
    (sae : StateAtEvent) (ev : Event) (rej : Bool) :
    (calculateAndSetState env input ri sae ev rej).2.2.outputs = [] ∧
    (calculateAndSetState env input ri sae ev rej).2.2.stored = [] ∧
    (calculateAndSetState env input ri sae ev rej).2.2.fedQueries = 0 ∧
    (calculateAndSetState env input ri sae ev rej).2.2.updatedExtremities = false ∧
    (calculateAndSetState env input ri sae ev rej).2.2.softFailChecked = false := by
  unfold calculateAndSetState
  split
  · split
    · next joins heq =>
      have h := calcSuppliedState_trace env input ri
        { sae with overwrite := joins.isEmpty } Trace.read
      simpa [Trace.read, Trace.empty] using h
    · next e heq =>
      have h := calcSuppliedState_trace env input ri { sae with overwrite := true } Trace.read
      simpa [Trace.read, Trace.empty] using h
  · split
    · simp [Trace.empty]
    · unfold setStateStep
      split
      · simp [Trace.empty]
      · simp [Trace.append, Trace.empty, Trace.setStateOne]

theorem finishEvent_trace (env : Env) (input : InputRoomEvent) (headered : HeaderedEvent)
    (event1 : Event) (ri : RoomInfo) (sae : StateAtEvent) (isRejected softfail : Bool)
    (rejectionErr : Option Err) (re : Event) (rid : EventID) :
    (finishEvent env input headered event1 ri sae isRejected softfail rejectionErr re rid).2.stored = [] ∧
    (finishEvent env input headered event1 ri sae isRejected softfail rejectionErr re rid).2.setStates = [] ∧
    (finishEvent env input headered event1 ri sae isRejected softfail rejectionErr re rid).2.addStates = [] ∧
    (finishEvent env input headered event1 ri sae isRejected softfail rejectionErr re rid).2.reads = 0 ∧
    (finishEvent env input headered event1 ri sae isRejected softfail rejectionErr re rid).2.fedQueries = 0 ∧
    (finishEvent env input headered event1 ri sae isRejected softfail rejectionErr re rid).2.softFailChecked = false := by
  unfold finishEvent
  split
  · simp [Trace.empty]
  · repeat' split
    all_goals
      simp_all [Trace.empty, Trace.append, updateLatestEventsTrace, writeOutputEventsTrace]

theorem ensureStateSnapshot_trace (env : Env) (input : InputRoomEvent) (ri : RoomInfo)
    (sae : StateAtEvent) (ev : Event) (rej : Bool) :
    (ensureStateSnapshot env input ri sae ev rej).2.2.outputs = [] ∧
    (ensureStateSnapshot env input ri sae ev rej).2.2.stored = [] ∧
    (ensureStateSnapshot env input ri sae ev rej).2.2.fedQueries = 0 ∧
    (ensureStateSnapshot env input ri sae ev rej).2.2.updatedExtremities = false ∧
    (ensureStateSnapshot env input ri sae ev rej).2.2.softFailChecked = false := by
  unfold ensureStateSnapshot
  split
  · exact calculateAndSetState_trace env input ri sae ev rej
  · simp [Trace.empty]

theorem stateAndFinish_trace (env : Env) (input : InputRoomEvent) (headered : HeaderedEvent)
    (event1 : Event) (sae : StateAtEvent) (isRejected softfail : Bool)
    (rejectionErr : Option Err) (re : Event) (rid : EventID) :
    (stateAndFinish env input headered event1 sae isRejected softfail rejectionErr re rid).2.stored = [] ∧
    (stateAndFinish env input headered event1 sae isRejected softfail rejectionErr re rid).2.fedQueries = 0 ∧
    (stateAndFinish env input headered event1 sae isRejected softfail rejectionErr re rid).2.softFailChecked = false := by
  unfold stateAndFinish
  split
  · simp [Trace.read, Trace.empty]
  · simp [Trace.read, Trace.empty]
  · next ri heq =>
    rcases hens : ensureStateSnapshot env input ri sae event1 isRejected with ⟨calcRes, sae1, t3⟩
    have h3 := ensureStateSnapshot_trace env input ri sae event1 isRejected
    rw [hens] at h3
    rcases hfin : finishEvent env input headered event1 ri sae1 isRejected softfail
        rejectionErr re rid with ⟨r, t4⟩
    have h4 := finishEvent_trace env input headered event1 ri sae1 isRejected softfail
        rejectionErr re rid
    rw [hfin] at h4
    replace h3 : t3.outputs = [] ∧ t3.stored = [] ∧ t3.fedQueries = 0 ∧
        t3.updatedExtremities = false ∧ t3.softFailChecked = false := h3
    replace h4 : t4.stored = [] ∧ t4.setStates = [] ∧ t4.addStates = [] ∧
        t4.reads = 0 ∧ t4.fedQueries = 0 ∧ t4.softFailChecked = false := h4
    rcases calcRes with e | u
    · by_cases hold : input.kind = EventKind.old
      · simp [hold, hfin, Trace.read, Trace.empty, h3.2.1, h3.2.2.1, h3.2.2.2.2,
          h4.1, h4.2.2.2.2.1, h4.2.2.2.2.2]
      · simp [hold, Trace.read, Trace.empty, h3.2.1, h3.2.2.1, h3.2.2.2.2]
    · simp [hfin, Trace.read, Trace.empty, h3.2.1, h3.2.2.1, h3.2.2.2.2,
        h4.1, h4.2.2.2.2.1, h4.2.2.2.2.2]

theorem stateAndFinish_stored (env : Env) (input : InputRoomEvent) (headered : HeaderedEvent)
    (event1 : Event) (sae : StateAtEvent) (isRejected softfail : Bool)
    (rejectionErr : Option Err) (re : Event) (rid : EventID) :
    (stateAndFinish env input headered event1 sae isRejected softfail rejectionErr re rid).2.stored = [] :=
  (stateAndFinish_trace env input headered event1 sae isRejected softfail rejectionErr re rid).1

theorem stateAndFinish_fedQueries (env : Env) (input : InputRoomEvent) (headered : HeaderedEvent)
    (event1 : Event) (sae : StateAtEvent) (isRejected softfail : Bool)
    (rejectionErr : Option Err) (re : Event) (rid : EventID) :
    (stateAndFinish env input headered event1 sae isRejected softfail rejectionErr re rid).2.fedQueries = 0 :=
  (stateAndFinish_trace env input headered event1 sae isRejected softfail rejectionErr re rid).2.1

theorem stateAndFinish_softFailChecked (env : Env) (input : InputRoomEvent) (headered : HeaderedEvent)
    (event1 : Event) (sae : StateAtEvent) (isRejected softfail : Bool)
    (rejectionErr : Option Err) (re : Event) (rid : EventID) :
    (stateAndFinish env input headered event1 sae isRejected softfail rejectionErr re rid).2.softFailChecked = false :=
  (stateAndFinish_trace env input headered event1 sae isRejected softfail rejectionErr re rid).2.2

theorem ingest_softFailChecked_only_new (env : Env) (input : InputRoomEvent)
    (h : input.kind ≠ EventKind.new) :
    (ingest env input).2.softFailChecked = false := by
  unfold ingest
  rcases hcm : checkForMissingAuthEvents env input.event [] with ⟨res, tcm⟩
  have hq := checkForMissingAuthEvents_quiet env input.event []
  rw [hcm] at hq
  replace hq : tcm.softFailChecked = false := hq.2.2.2.2
  rcases res with e | a
  · exact hq
  · rcases hauth : env.checkAuthEvents input.event input.authEventIDs with ⟨nids, rerr⟩
    simp only [checkForMissingPrevEvents, if_neg h]
    repeat' split
    all_goals
      simp [Trace.append, Trace.empty, Trace.storeOne, hq, stateAndFinish_softFailChecked]

theorem processRoomEvent_softFailChecked_only_new (env : Env) (input : InputRoomEvent)
    (h : input.kind ≠ EventKind.new) :
    (processRoomEvent env input).2.softFailChecked = false := by
  unfold processRoomEvent
  by_cases hout : input.kind = EventKind.outlier
  · simp only [hout, if_true]
    repeat' split
    all_goals
      simp [Trace.read, Trace.empty, Trace.append, ingest_softFailChecked_only_new env input h]
  · rw [if_neg hout]
    exact ingest_softFailChecked_only_new env input h

/-!
Claim theorems.
-/

/-- C1: contrary to the specified behaviour, an event returned by the
federation query whose auth ancestor `$x` resolves neither in the in-memory
cache nor in the store is persisted anyway, with the zero `EventNID`
standing in for the missing ancestor, and `checkForMissingAuthEvents`
returns success instead of the "missing auth event NIDs" error: the guard
compares the length of a list that always has exactly one entry per
declared ancestor (the Go map read yields the zero NID), so it can never
fire.  This theorem evaluates the embedded code at the failing input. -/
theorem C1_incompleteChain_persisted_without_error :
    (checkForMissingAuthEvents envMissingAuth ⟨evTop, "6"⟩ []).1 = Except.ok () ∧
    (checkForMissingAuthEvents envMissingAuth ⟨evTop, "6"⟩ []).2.stored =
      [(evChainB, [0], false)] ∧
    (checkForMissingAuthEvents envMissingAuth ⟨evTop, "6"⟩ []).2.fedQueries = 1 ∧
    evChainB.authEventIDs = ["$x"] ∧
    envMissingAuth.db.eventNIDs ["$x"] = Except.ok [] ∧
    lookupCache [] "$x" = none := by
  decide

/-- C10: `checkForMissingAuthEvents` returns nil immediately for an event
with no declared auth ancestors, performing no store read, no federation
query and no persistence; and when the store already resolves every
declared ancestor, no federation query is issued and no event is persisted
by the resolver. -/
theorem C10_missingAuthEvents_frame (env : Env) (event : HeaderedEvent)
    (cache known : List (EventID × EventNID)) :
    (event.event.authEventIDs = [] →
      checkForMissingAuthEvents env event cache = (Except.ok (), Trace.empty)) ∧
    (env.db.eventNIDs event.event.authEventIDs = Except.ok known →
      (∀ id ∈ event.event.authEventIDs, (lookupCache known id).isSome) →
      (checkForMissingAuthEvents env event cache).1 = Except.ok () ∧
      (checkForMissingAuthEvents env event cache).2.fedQueries = 0 ∧
      (checkForMissingAuthEvents env event cache).2.stored = []) := by
  constructor
  · intro h
    simp [checkForMissingAuthEvents, h]
  · intro hknown hcov
    unfold checkForMissingAuthEvents
    by_cases hemp : event.event.authEventIDs.isEmpty
    · simp [hemp, Trace.empty]
    · simp only [hemp, if_false, hknown]
      have hmiss : event.event.authEventIDs.filter
          (fun id => (lookupCache known id).isNone) = [] := by
        apply List.filter_eq_nil_iff.2
        intro a ha
        have hs := hcov a ha
        simp only [Option.isNone_iff_eq_none]
        intro hcontra
        rw [hcontra] at hs
        simp at hs
      simp [hmiss, Trace.read, Trace.empty]

/-- C10 witness: at a concrete event with no auth ancestors the resolver is
a no-op, and at a concrete event whose single ancestor `$b` the store
resolves to NID 2 it issues no federation query and persists nothing. -/
theorem C10_missingAuthEvents_frame_witness :
    checkForMissingAuthEvents baseEnv ⟨evPlain, "6"⟩ [] = (Except.ok (), Trace.empty) ∧
    ((checkForMissingAuthEvents envKnownB ⟨evTop, "6"⟩ []).1 = Except.ok () ∧
     (checkForMissingAuthEvents envKnownB ⟨evTop, "6"⟩ []).2.fedQueries = 0 ∧
     (checkForMissingAuthEvents envKnownB ⟨evTop, "6"⟩ []).2.stored = []) :=
  ⟨(C10_missingAuthEvents_frame baseEnv ⟨evPlain, "6"⟩ [] []).1 rfl,
   (C10_missingAuthEvents_frame envKnownB ⟨evTop, "6"⟩ [] [("$b", 2)]).2 rfl (by decide)⟩

/-- C9: the result of `processRoomEvent` — return value and effect trace —
does not depend on the error component returned by the soft-fail check: the
error is only logged and ingestion continues with whichever boolean the
check returned; concretely, a `New` input behaves identically whether the
soft-fail check reports its verdict with or without an error. -/
theorem C9_softFailError_ignored :
    (∀ (env : Env) (f g : HeaderedEvent → List EventID → Option Err)
        (input : InputRoomEvent),
      processRoomEvent (setSoftFailErr env f) input =
        processRoomEvent (setSoftFailErr env g) input) ∧
    processRoomEvent envSoftFailErr inputNew = processRoomEvent envSoftFail inputNew := by
  constructor
  · intro env f g input
    rfl
  · decide

/-- Early-return shape of the finishing steps: with the room info present, a
non-zero snapshot already reported, and the event rejected or soft-failed,
the tail returns the event ID with the rejection error and performs only the
room-info read. -/
theorem stateAndFinish_earlyReturn (env : Env) (input : InputRoomEvent)
    (headered : HeaderedEvent) (event1 : Event) (sae : StateAtEvent)
    (isRejected softfail : Bool) (rejectionErr : Option Err) (re : Event)
    (rid : EventID) (ri : RoomInfo)
    (hri : env.db.roomInfo event1.roomID = Except.ok (some ri))
    (hsnap : sae.beforeStateSnapshotNID ≠ 0)
    (hstop : (isRejected || softfail) = true) :
    stateAndFinish env input headered event1 sae isRejected softfail rejectionErr re rid =
      ((event1.eventID, rejectionErr), Trace.read) := by
  unfold stateAndFinish ensureStateSnapshot finishEvent
  simp [hri, hsnap, hstop, Trace.append, Trace.read, Trace.empty]

/-- C5: the soft-fail check runs only for `New` inputs; and a `New` event
that passes the declared-auth check but soft-fails is stored, leaves the
forward extremities unchanged, emits no output (in particular no
`NewRoomEvent`), and `processRoomEvent` returns its event ID with a nil
error. -/
theorem C5_softFail_stored_not_amplified (env : Env) (input : InputRoomEvent)
    (nids : List EventNID) (n : EventNID) (sae : StateAtEvent) (re : Event) (ri : RoomInfo)
    (hkind : input.kind = EventKind.new)
    (hcm : (checkForMissingAuthEvents env input.event []).1 = Except.ok ())
    (hauth : env.checkAuthEvents input.event input.authEventIDs = (nids, none))
    (hsf : (env.checkForSoftFail input.event input.stateEventIDs).1 = true)
    (hstore : env.db.storeEvent input.event.event nids false = Except.ok (n, sae, re, ""))
    (hid : input.event.event.eventID ≠ "")
    (hri : env.db.roomInfo input.event.event.roomID = Except.ok (some ri))
    (hsnap : sae.beforeStateSnapshotNID ≠ 0) :
    (∀ (env2 : Env) (input2 : InputRoomEvent), input2.kind ≠ EventKind.new →
      (processRoomEvent env2 input2).2.softFailChecked = false) ∧
    (processRoomEvent env input).1 = (input.event.event.eventID, none) ∧
    (input.event.event, nids, false) ∈ (processRoomEvent env input).2.stored ∧
    (processRoomEvent env input).2.updatedExtremities = false ∧
    (processRoomEvent env input).2.outputs = [] := by
  refine ⟨fun env2 input2 h2 => processRoomEvent_softFailChecked_only_new env2 input2 h2, ?_⟩
  have hproc : processRoomEvent env input = ingest env input := by
    simp [processRoomEvent, hkind]
  rw [hproc]
  unfold ingest
  rcases hcmfull : checkForMissingAuthEvents env input.event [] with ⟨res, tcm⟩
  rw [hcmfull] at hcm
  simp only at hcm
  subst hcm
  have hq := checkForMissingAuthEvents_quiet env input.event []
  rw [hcmfull] at hq
  replace hq : tcm.outputs = [] ∧ tcm.setStates = [] ∧ tcm.addStates = [] ∧
      tcm.updatedExtremities = false ∧ tcm.softFailChecked = false := hq
  have hsfin := stateAndFinish_earlyReturn env input input.event input.event.event sae
    false ((env.checkForSoftFail input.event input.stateEventIDs).1) none re "" ri hri hsnap
    (by simp [hsf])
  simp [hauth, checkForMissingPrevEvents, hkind, hstore, Ne.symm hid, hsfin,
    Trace.append, Trace.empty, Trace.softFailCheck, Trace.storeOne, Trace.read,
    hq.1, hq.2.2.2.1]

/-- C5 witness: a concrete `New` event that soft-fails is stored, leaves
extremities alone, emits nothing, and yields a nil error. -/
theorem C5_softFail_witness :
    (∀ (env2 : Env) (input2 : InputRoomEvent), input2.kind ≠ EventKind.new →
      (processRoomEvent env2 input2).2.softFailChecked = false) ∧
    (processRoomEvent envSoftFail inputNew).1 = (evPlain.eventID, none) ∧
    (evPlain, [], false) ∈ (processRoomEvent envSoftFail inputNew).2.stored ∧
    (processRoomEvent envSoftFail inputNew).2.updatedExtremities = false ∧
    (processRoomEvent envSoftFail inputNew).2.outputs = [] :=
  C5_softFail_stored_not_amplified envSoftFail inputNew [] 1 ⟨1, 1, false⟩ dummyEvent ⟨7⟩
    rfl (by decide) rfl rfl rfl (by decide) rfl (by decide)

/-- C3 counterexample: a concrete `Outlier` input that fails
`CheckAuthEvents` is persisted with `rejected = true` but `processRoomEvent`
returns its event ID with a NIL error — not, as the claim states for every
input, together with the non-nil rejection error. -/
theorem C3_rejectedOutlier_returns_nil_error :
    (envReject.checkAuthEvents ⟨evPlain, "6"⟩ [] = ([], some "auth check failed")) ∧
    (processRoomEvent envReject inputOutlier).1 = (evPlain.eventID, none) ∧
    (evPlain, [], true) ∈ (processRoomEvent envReject inputOutlier).2.stored := by
  decide

/-- C3 amended: an input that fails `CheckAuthEvents` is still persisted
with `rejected = true`, never updates the forward extremities and emits no
output (in particular no `NewRoomEvent`); a non-outlier input returns the
event ID together with the non-nil rejection error, while an outlier input
returns the event ID with a nil error. -/
theorem C3_rejected_persisted_not_amplified (env : Env) (input : InputRoomEvent)
    (nids : List EventNID) (rerrMsg : Err) (n : EventNID) (sae : StateAtEvent)
    (re : Event) (rid : EventID) (ri : RoomInfo)
    (hcm : (checkForMissingAuthEvents env input.event []).1 = Except.ok ())
    (hauth : env.checkAuthEvents input.event input.authEventIDs = (nids, some rerrMsg))
    (hstore : env.db.storeEvent input.event.event nids true = Except.ok (n, sae, re, rid)) :
    (input.kind = EventKind.outlier →
      env.db.eventsFromIDs [input.event.event.eventID] = Except.ok [] →
      (processRoomEvent env input).1 = (input.event.event.eventID, none) ∧
      (input.event.event, nids, true) ∈ (processRoomEvent env input).2.stored ∧
      (processRoomEvent env input).2.updatedExtremities = false ∧
      (processRoomEvent env input).2.outputs = []) ∧
    (input.kind ≠ EventKind.outlier →
      env.db.roomInfo input.event.event.roomID = Except.ok (some ri) →
      sae.beforeStateSnapshotNID ≠ 0 →
      (processRoomEvent env input).1 = (input.event.event.eventID, some rerrMsg) ∧
      (input.event.event, nids, true) ∈ (processRoomEvent env input).2.stored ∧
      (processRoomEvent env input).2.updatedExtremities = false ∧
      (processRoomEvent env input).2.outputs = []) := by
  rcases hcmfull : checkForMissingAuthEvents env input.event [] with ⟨res, tcm⟩
  rw [hcmfull] at hcm
  simp only at hcm
  subst hcm
  have hq := checkForMissingAuthEvents_quiet env input.event []
  rw [hcmfull] at hq
  replace hq : tcm.outputs = [] ∧ tcm.setStates = [] ∧ tcm.addStates = [] ∧
      tcm.updatedExtremities = false ∧ tcm.softFailChecked = false := hq
  constructor
  · intro hkind hdedup
    have hproc : processRoomEvent env input =
        (fun r => (r.1, Trace.append Trace.read r.2)) (ingest env input) := by
      simp [processRoomEvent, hkind, hdedup]
    rw [hproc]
    unfold ingest
    simp [hcmfull, hauth, checkForMissingPrevEvents, hkind, hstore,
      Trace.append, Trace.empty, Trace.softFailCheck, Trace.storeOne, Trace.read,
      hq.1, hq.2.2.2.1]
  · intro hkind hri hsnap
    have hproc : processRoomEvent env input = ingest env input := by
      simp [processRoomEvent, hkind]
    rw [hproc]
    unfold ingest
    have hsfin : ∀ b : Bool,
        stateAndFinish env input input.event input.event.event sae true b
          (some rerrMsg) re rid = ((input.event.event.eventID, some rerrMsg), Trace.read) :=
      fun b => stateAndFinish_earlyReturn env input input.event input.event.event sae
        true b (some rerrMsg) re rid ri hri hsnap (by simp)
    by_cases hnew : input.kind = EventKind.new <;>
      simp [hnew, hcmfull, hauth, checkForMissingPrevEvents, hkind, hstore, hsfin,
        Trace.append, Trace.empty, Trace.softFailCheck, Trace.storeOne, Trace.read,
        hq.1, hq.2.2.2.1]

/-- C3 witness: concrete rejected outlier and `New` inputs — both stored
with `rejected = true`, neither touching extremities nor outputs; the
outlier returns a nil error, the `New` input the rejection error. -/
theorem C3_rejected_witness :
    ((processRoomEvent envRejectNoDedup inputOutlier).1 = (evPlain.eventID, none) ∧
     (evPlain, [], true) ∈ (processRoomEvent envRejectNoDedup inputOutlier).2.stored ∧
     (processRoomEvent envRejectNoDedup inputOutlier).2.updatedExtremities = false ∧
     (processRoomEvent envRejectNoDedup inputOutlier).2.outputs = []) ∧
    ((processRoomEvent envReject inputNew).1 = (evPlain.eventID, some "auth check failed") ∧
     (evPlain, [], true) ∈ (processRoomEvent envReject inputNew).2.stored ∧
     (processRoomEvent envReject inputNew).2.updatedExtremities = false ∧
     (processRoomEvent envReject inputNew).2.outputs = []) :=
  ⟨(C3_rejected_persisted_not_amplified envRejectNoDedup inputOutlier [] "auth check failed"
      1 ⟨1, 1, false⟩ dummyEvent "" ⟨7⟩ (by decide) rfl rfl).1 rfl rfl,
   (C3_rejected_persisted_not_amplified envReject inputNew [] "auth check failed"
      1 ⟨1, 1, false⟩ dummyEvent "" ⟨7⟩ (by decide) rfl rfl).2 (by decide) rfl (by decide)⟩

/-- C2 counterexample: a concrete `Old` input for which `StoreEvent` reports
`BeforeStateSnapshotNID = 0` and the state-resolution engine fails returns
success with no snapshot ever bound (`SetState` is never reached) — contrary
to the claim that `processRoomEvent` computes and binds a snapshot before
returning or returns an error. -/
theorem C2_oldEvent_snapshot_left_unbound :
    envOldCalcFail.db.storeEvent evPlain [] false =
      Except.ok (1, ⟨1, 0, false⟩, dummyEvent, "") ∧
    inputOld.kind = EventKind.old ∧
    (processRoomEvent envOldCalcFail inputOld).1 = (evPlain.eventID, none) ∧
    (processRoomEvent envOldCalcFail inputOld).2.setStates = [] := by
  decide

/-- When `calculateAndSetState` returns without error it has bound a
non-zero snapshot to the event's NID, provided the store and the
state-resolution engine never issue the zero snapshot NID. -/
theorem calculateAndSetState_ok_binds (env : Env) (input : InputRoomEvent) (ri : RoomInfo)
    (sae : StateAtEvent) (ev : Event) (rej : Bool)
    (hA : ∀ r es m, env.db.addState r es = Except.ok m → m ≠ 0)
    (hC : ∀ e b m, env.calculateAndStoreStateBeforeEvent e b = Except.ok m → m ≠ 0) :
    (∃ e, (calculateAndSetState env input ri sae ev rej).1 = Except.error e) ∨
    (∃ m, m ≠ 0 ∧
      (sae.eventNID, m) ∈ (calculateAndSetState env input ri sae ev rej).2.2.setStates) := by
  unfold calculateAndSetState calcSuppliedState setStateStep
  split
  · split
    · split
      · left; exact ⟨_, rfl⟩
      · split
        · left; exact ⟨_, rfl⟩
        · next nid heqadd =>
          split
          · left; exact ⟨_, rfl⟩
          · right
            exact ⟨nid, hA _ _ _ heqadd, by
              simp [Trace.append, Trace.setStateOne, Trace.addStateOne, Trace.read, Trace.empty]⟩
    · split
      · left; exact ⟨_, rfl⟩
      · split
        · left; exact ⟨_, rfl⟩
        · next nid heqadd =>
          split
          · left; exact ⟨_, rfl⟩
          · right
            exact ⟨nid, hA _ _ _ heqadd, by
              simp [Trace.append, Trace.setStateOne, Trace.addStateOne, Trace.read, Trace.empty]⟩
  · split
    · left; exact ⟨_, rfl⟩
    · next nid heqc =>
      split
      · left; exact ⟨_, rfl⟩
      · right
        exact ⟨nid, hC _ _ _ heqc, by
          simp [Trace.append, Trace.setStateOne, Trace.empty]⟩

/-- C2 amended: for a `New` input (the `Old` kind tolerates a state-calculation
failure, as the counterexample shows), whenever `StoreEvent` reports
`BeforeStateSnapshotNID = 0`, `processRoomEvent` either returns an error or
has bound a non-zero snapshot to the event's NID via `SetState` before
returning — assuming the store and the state-resolution engine never issue
the sentinel snapshot NID 0. -/
theorem C2_newEvent_snapshotZero_bound_or_error (env : Env) (input : InputRoomEvent)
    (n : EventNID) (sae : StateAtEvent) (re : Event) (rid : EventID)
    (hkind : input.kind = EventKind.new)
    (hstore : env.db.storeEvent input.event.event
        (env.checkAuthEvents input.event input.authEventIDs).1
        (env.checkAuthEvents input.event input.authEventIDs).2.isSome =
      Except.ok (n, sae, re, rid))
    (hsnap : sae.beforeStateSnapshotNID = 0)
    (hA : ∀ r es m, env.db.addState r es = Except.ok m → m ≠ 0)
    (hC : ∀ e b m, env.calculateAndStoreStateBeforeEvent e b = Except.ok m → m ≠ 0) :
    (processRoomEvent env input).1.2.isSome = true ∨
    (∃ m, m ≠ 0 ∧ (sae.eventNID, m) ∈ (processRoomEvent env input).2.setStates) := by
  have hproc : processRoomEvent env input = ingest env input := by
    simp [processRoomEvent, hkind]
  rw [hproc]
  unfold ingest
  rcases hcmfull : checkForMissingAuthEvents env input.event [] with ⟨res, tcm⟩
  simp only [hcmfull]
  rcases res with e | a
  · left; rfl
  · rcases hauth : env.checkAuthEvents input.event input.authEventIDs with ⟨nids, rerr⟩
    rw [hauth] at hstore
    simp only at hstore
    simp only [hauth, checkForMissingPrevEvents, hstore]
    rcases hred : (if ¬rerr.isSome ∧ rid = input.event.event.eventID then
        env.redactEvent re input.event.event else Except.ok input.event.event) with e1 | event1
    · simp only [hred]
      left; rfl
    · simp only [hred, hkind]
      rw [if_neg (by simp)]
      unfold stateAndFinish
      rcases hri : env.db.roomInfo event1.roomID with e2 | ori
      · simp only [hri]
        left; rfl
      · rcases ori with _ | ri
        · simp only [hri]
          left; rfl
        · simp only [hri]
          unfold ensureStateSnapshot
          rw [if_pos hsnap]
          rcases hcalc : calculateAndSetState env input ri sae event1 rerr.isSome
            with ⟨calcRes, sae1, t3⟩
          simp only [hcalc]
          have hbind := calculateAndSetState_ok_binds env input ri sae event1 rerr.isSome hA hC
          rw [hcalc] at hbind
          rcases calcRes with e3 | u
          · simp only [hkind]
            left; rfl
          · rcases hbind with ⟨e3, habs⟩ | ⟨m, hm0, hmem⟩
            · exact absurd habs (by simp)
            · replace hmem : (sae.eventNID, m) ∈ t3.setStates := hmem
              rcases hfin : finishEvent env input input.event event1 ri sae1 rerr.isSome
                  (if input.kind = EventKind.new then
                    (env.checkForSoftFail input.event input.stateEventIDs).1
                  else false) rerr re rid with ⟨r, t4⟩
              simp only [hfin]
              right
              refine ⟨m, hm0, ?_⟩
              simp [Trace.append, Trace.empty, Trace.softFailCheck, Trace.storeOne,
                Trace.read, List.mem_append, hmem]

/-- C2 witness: a concrete `New` input whose stored snapshot NID is 0, in an
environment issuing only non-zero snapshot NIDs, is bound or errors out. -/
theorem C2_newEvent_snapshotZero_witness :
    (processRoomEvent envSnapZero inputNew).1.2.isSome = true ∨
    (∃ m, m ≠ 0 ∧ (1, m) ∈ (processRoomEvent envSnapZero inputNew).2.setStates) :=
  C2_newEvent_snapshotZero_bound_or_error envSnapZero inputNew 1 ⟨1, 0, false⟩ dummyEvent ""
    rfl rfl rfl
    (by intro r es m h; injection h with h2; subst h2; decide)
    (by intro e b m h; injection h with h2; subst h2; decide)

/-- C4: for an already-stored outlier, a legacy-v1 room version skips
re-processing exactly when the SHA-256 reference hashes match, proceeding
with the full ingest when they differ, while any newer ID format skips on
presence alone; skipping performs only the lookup read and stores nothing. -/
theorem C4_outlierDedup (env : Env) (input : InputRoomEvent) (ev0 : Event)
    (hkind : input.kind = EventKind.outlier)
    (hfound : env.db.eventsFromIDs [input.event.event.eventID] = Except.ok [ev0]) :
    (eventIDFormatOf input.event.roomVersion = Except.ok EventIDFormat.v1 →
      input.event.event.sha256 = ev0.sha256 →
      processRoomEvent env input = ((input.event.event.eventID, none), Trace.read)) ∧
    (eventIDFormatOf input.event.roomVersion = Except.ok EventIDFormat.v1 →
      input.event.event.sha256 ≠ ev0.sha256 →
      processRoomEvent env input =
        ((ingest env input).1, Trace.append Trace.read (ingest env input).2)) ∧
    (∀ f, eventIDFormatOf input.event.roomVersion = Except.ok f → f ≠ EventIDFormat.v1 →
      processRoomEvent env input = ((input.event.event.eventID, none), Trace.read)) := by
  refine ⟨?_, ?_, ?_⟩
  · intro hfmt hsha
    simp [processRoomEvent, hkind, hfound, hfmt, hsha]
  · intro hfmt hsha
    simp [processRoomEvent, hkind, hfound, hfmt, hsha]
  · intro f hfmt hf
    rcases f with _ | _ | _
    · exact absurd rfl hf
    · simp [processRoomEvent, hkind, hfound, hfmt]
    · simp [processRoomEvent, hkind, hfound, hfmt]

/-- C4 witness: concrete stored outliers — v1 room with matching hash skips,
v1 room with differing hash falls through to the full ingest, v6 room skips
on presence alone. -/
theorem C4_outlierDedup_witness :
    processRoomEvent envDedup inputOutlierV1 = ((evPlain.eventID, none), Trace.read) ∧
    processRoomEvent envDedupOtherHash inputOutlierV1 =
      ((ingest envDedupOtherHash inputOutlierV1).1,
       Trace.append Trace.read (ingest envDedupOtherHash inputOutlierV1).2) ∧
    processRoomEvent envDedup inputOutlier = ((evPlain.eventID, none), Trace.read) :=
  ⟨(C4_outlierDedup envDedup inputOutlierV1 evPlain rfl rfl).1 rfl rfl,
   (C4_outlierDedup envDedupOtherHash inputOutlierV1 evPlainOtherHash rfl rfl).2.1 rfl
     (by decide),
   (C4_outlierDedup envDedup inputOutlier evPlain rfl rfl).2.2 EventIDFormat.v3 rfl
     (by decide)⟩

/-- Deduplication invariant: after `dedupStateEntriesAux`, the tuple NIDs
are pairwise distinct and none of them is in the seen set. -/
theorem dedupStateEntriesAux_nodup (l : List StateEntry) (seen : List Nat) :
    ((dedupStateEntriesAux l seen).map (fun e => e.stateKeyTupleNID)).Nodup ∧
    ∀ x ∈ dedupStateEntriesAux l seen, x.stateKeyTupleNID ∉ seen := by
  induction l generalizing seen with
  | nil => simp [dedupStateEntriesAux]
  | cons e rest ih =>
    unfold dedupStateEntriesAux
    by_cases hmem : e.stateKeyTupleNID ∈ seen
    · simpa [hmem] using ih seen
    · simp only [hmem, if_false]
      obtain ⟨ih1, ih2⟩ := ih (e.stateKeyTupleNID :: seen)
      constructor
      · rw [List.map_cons, List.nodup_cons]
        refine ⟨?_, ih1⟩
        intro hcontra
        rcases List.mem_map.1 hcontra with ⟨x, hx, hxeq⟩
        exact ih2 x hx (by rw [← hxeq]; exact List.mem_cons_self _ _)
      · intro x hx
        rcases List.mem_cons.1 hx with h | h
        · rw [h]; exact hmem
        · intro hxs
          exact ih2 x h (List.mem_cons_of_mem _ hxs)

/-- The supplied-state snapshot is dedup-normalised: at most one entry per
state-key tuple NID. -/
theorem deduplicateStateEntries_nodup (l : List StateEntry) :
    ((deduplicateStateEntries l).map (fun e => e.stateKeyTupleNID)).Nodup :=
  (dedupStateEntriesAux_nodup l []).1

/-- C6: a non-rejected input carrying `HasState` takes the caller-supplied
state path of `calculateAndSetState`: the resolved entries are deduplicated
and stored as the snapshot (which is then bound to the event), and
`Overwrite` ends up `true` exactly when the membership query reports no
joined local users; the dedup-normalised snapshot has at most one entry per
state-key tuple. -/
theorem C6_suppliedState_path (env : Env) (input : InputRoomEvent) (ri : RoomInfo)
    (sae : StateAtEvent) (ev : Event) (joins : List EventNID)
    (entries : List StateEntry) (nid : StateSnapshotNID)
    (hHasState : input.hasState = true)
    (hmem : env.db.getMembershipEventNIDsForRoom ri.roomNID true true = Except.ok joins)
    (hentries : env.db.stateEntriesForEventIDs input.stateEventIDs = Except.ok entries)
    (hadd : env.db.addState ri.roomNID (deduplicateStateEntries entries) = Except.ok nid)
    (hset : env.db.setState sae.eventNID nid = Except.ok ()) :
    calculateAndSetState env input ri sae ev false =
      (Except.ok (),
       { sae with overwrite := joins.isEmpty, beforeStateSnapshotNID := nid },
       Trace.append
         (Trace.append (Trace.append Trace.read Trace.read)
           (Trace.addStateOne ri.roomNID (deduplicateStateEntries entries)))
         (Trace.setStateOne sae.eventNID nid)) ∧
    ((deduplicateStateEntries entries).map (fun e => e.stateKeyTupleNID)).Nodup := by
  refine ⟨?_, deduplicateStateEntries_nodup entries⟩
  unfold calculateAndSetState calcSuppliedState setStateStep
  simp [hHasState, hmem, hentries, hadd, hset]

/-- C6 witness: concrete supplied-state inputs — with one joined local user
`Overwrite` is `false`, with none it is `true`; in both cases the three
resolved entries are deduplicated to two and stored. -/
theorem C6_suppliedState_witness :
    (calculateAndSetState envSupplied inputHasState ⟨7⟩ ⟨1, 0, false⟩ evPlain false =
      (Except.ok (),
       ⟨1, 5, false⟩,
       Trace.append
         (Trace.append (Trace.append Trace.read Trace.read)
           (Trace.addStateOne 7 [⟨3, 10⟩, ⟨4, 12⟩]))
         (Trace.setStateOne 1 5)) ∧
     ((deduplicateStateEntries [⟨3, 10⟩, ⟨3, 11⟩, ⟨4, 12⟩]).map
       (fun e => e.stateKeyTupleNID)).Nodup) ∧
    (calculateAndSetState envSuppliedEmptyRoom inputHasState ⟨7⟩ ⟨1, 0, false⟩ evPlain false =
      (Except.ok (),
       ⟨1, 5, true⟩,
       Trace.append
         (Trace.append (Trace.append Trace.read Trace.read)
           (Trace.addStateOne 7 [⟨3, 10⟩, ⟨4, 12⟩]))
         (Trace.setStateOne 1 5)) ∧
     ((deduplicateStateEntries [⟨3, 10⟩, ⟨3, 11⟩, ⟨4, 12⟩]).map
       (fun e => e.stateKeyTupleNID)).Nodup) :=
  ⟨C6_suppliedState_path envSupplied inputHasState ⟨7⟩ ⟨1, 0, false⟩ evPlain [6]
     [⟨3, 10⟩, ⟨3, 11⟩, ⟨4, 12⟩] 5 rfl rfl rfl (by decide) rfl,
   C6_suppliedState_path envSuppliedEmptyRoom inputHasState ⟨7⟩ ⟨1, 0, false⟩ evPlain []
     [⟨3, 10⟩, ⟨3, 11⟩, ⟨4, 12⟩] 5 rfl rfl rfl (by decide) rfl⟩

/-- C7 counterexample: the claim as stated fails at concrete inputs in two
ways.  A stored event that is itself the reported redaction target but was
rejected by the declared-auth check is NOT redacted: the outlier return
value is the unredacted event's ID, although the redaction oracle would
have produced the `$redacted` projection.  And a non-rejected `Old`
redaction target IS redacted (the return value uses the redacted ID), yet
its `OldRoomEvent` output still carries the original (unredacted) headered
input event, so the redacted event is not used for all subsequent outputs
either. -/
theorem C7_redaction_claim_counterexample :
    (envRedactedRejected.db.storeEvent evPlain [] true =
      Except.ok (1, ⟨1, 1, false⟩, evRedactionR, evPlain.eventID)) ∧
    envRedactedRejected.redactEvent evRedactionR evPlain = Except.ok evRedactedMark ∧
    evRedactedMark.eventID = "$redacted" ∧
    evPlain.eventID = "$e1" ∧
    (processRoomEvent envRedactedRejected inputOutlier).1 = ("$e1", none) ∧
    ((processRoomEvent envRedactedOk inputOld).1 = ("$redacted", none) ∧
     (processRoomEvent envRedactedOk inputOld).2.outputs =
       [OutputEvent.oldRoomEvent ⟨evPlain, "6"⟩,
        OutputEvent.redactedEvent "$e1" ⟨evRedactionR, "6"⟩]) := by
  decide

/-- C7 amended: for every stored non-rejected event whose reported
`redactedEventID` equals its own ID, `processRoomEvent` applies the
room-version redaction and uses the redacted event downstream: an outlier
returns the redacted event's ID; a `New` event is looked up, dispatched and
announced as the redacted event (the `NewRoomEvent` output carries it) and
its ID is returned; an `Old` event is looked up and returned as the
redacted event, but its `OldRoomEvent` output carries the original headered
input event.  Rejected events skip the redaction. -/
theorem C7_redaction_applied_unless_rejected (env : Env) (input : InputRoomEvent)
    (nids : List EventNID) (n : EventNID) (sae : StateAtEvent) (re ev1 : Event)
    (ri : RoomInfo)
    (hcm : (checkForMissingAuthEvents env input.event []).1 = Except.ok ())
    (hauth : env.checkAuthEvents input.event input.authEventIDs = (nids, none))
    (hstore : env.db.storeEvent input.event.event nids false =
      Except.ok (n, sae, re, input.event.event.eventID))
    (hredact : env.redactEvent re input.event.event = Except.ok ev1) :
    (input.kind = EventKind.outlier →
      env.db.eventsFromIDs [input.event.event.eventID] = Except.ok [] →
      (processRoomEvent env input).1 = (ev1.eventID, none)) ∧
    (input.kind = EventKind.new →
      (env.checkForSoftFail input.event input.stateEventIDs).1 = false →
      env.db.roomInfo ev1.roomID = Except.ok (some ri) →
      sae.beforeStateSnapshotNID ≠ 0 →
      env.updateLatestEvents ri sae ev1 input.sendAsServer input.transactionID
        input.hasState = Except.ok () →
      input.event.event.eventID ≠ "" →
      env.writeOutputEvents ev1.roomID
        [OutputEvent.redactedEvent input.event.event.eventID
          ⟨re, input.event.roomVersion⟩] = Except.ok () →
      (processRoomEvent env input).1 = (ev1.eventID, none) ∧
      OutputEvent.newRoomEvent ev1 input.sendAsServer input.transactionID input.hasState
        ∈ (processRoomEvent env input).2.outputs) ∧
    (input.kind = EventKind.old →
      env.db.roomInfo ev1.roomID = Except.ok (some ri) →
      sae.beforeStateSnapshotNID ≠ 0 →
      env.writeOutputEvents ev1.roomID
        [OutputEvent.oldRoomEvent input.event] = Except.ok () →
      input.event.event.eventID ≠ "" →
      env.writeOutputEvents ev1.roomID
        [OutputEvent.redactedEvent input.event.event.eventID
          ⟨re, input.event.roomVersion⟩] = Except.ok () →
      (processRoomEvent env input).1 = (ev1.eventID, none) ∧
      OutputEvent.oldRoomEvent input.event ∈ (processRoomEvent env input).2.outputs) := by
  rcases hcmfull : checkForMissingAuthEvents env input.event [] with ⟨res, tcm⟩
  rw [hcmfull] at hcm
  simp only at hcm
  subst hcm
  refine ⟨?_, ?_, ?_⟩
  · intro hkind hdedup
    have hproc : processRoomEvent env input =
        (fun r => (r.1, Trace.append Trace.read r.2)) (ingest env input) := by
      simp [processRoomEvent, hkind, hdedup]
    rw [hproc]
    unfold ingest
    simp [hcmfull, hauth, checkForMissingPrevEvents, hkind, hstore, hredact]
  · intro hkind hsfb hri hsnap hupd hid hwout
    have hproc : processRoomEvent env input = ingest env input := by
      simp [processRoomEvent, hkind]
    rw [hproc]
    unfold ingest stateAndFinish ensureStateSnapshot finishEvent
    simp [hcmfull, hauth, checkForMissingPrevEvents, hkind, hstore, hredact, hsfb,
      hri, hsnap, hupd, hid, Ne.symm hid, hwout, updateLatestEventsTrace,
      writeOutputEventsTrace, Trace.append, Trace.empty, Trace.softFailCheck,
      Trace.storeOne, Trace.read]
  · intro hkind hri hsnap hwold hid hwout
    have hproc : processRoomEvent env input = ingest env input := by
      simp [processRoomEvent, hkind]
    rw [hproc]
    unfold ingest stateAndFinish ensureStateSnapshot finishEvent
    simp [hcmfull, hauth, checkForMissingPrevEvents, hkind, hstore, hredact,
      hri, hsnap, hwold, hid, Ne.symm hid, hwout, updateLatestEventsTrace,
      writeOutputEventsTrace, Trace.append, Trace.empty, Trace.softFailCheck,
      Trace.storeOne, Trace.read]

/-- C7 witness: concrete non-rejected redaction targets — the outlier
return value is the redacted projection's ID; the `New` dispatch output
carries the redacted event; the `Old` input returns the redacted ID while
its output entry keeps the original headered event. -/
theorem C7_redaction_witness :
    (processRoomEvent envRedactedOkNoDedup inputOutlier).1 = (evRedactedMark.eventID, none) ∧
    ((processRoomEvent envRedactedOk inputNew).1 = (evRedactedMark.eventID, none) ∧
     OutputEvent.newRoomEvent evRedactedMark "srv" none false
       ∈ (processRoomEvent envRedactedOk inputNew).2.outputs) ∧
    ((processRoomEvent envRedactedOk inputOld).1 = (evRedactedMark.eventID, none) ∧
     OutputEvent.oldRoomEvent ⟨evPlain, "6"⟩
       ∈ (processRoomEvent envRedactedOk inputOld).2.outputs) :=
  ⟨(C7_redaction_applied_unless_rejected envRedactedOkNoDedup inputOutlier [] 1 ⟨1, 1, false⟩
      evRedactionR evRedactedMark ⟨7⟩ (by decide) rfl rfl rfl).1 rfl rfl,
   (C7_redaction_applied_unless_rejected envRedactedOk inputNew [] 1 ⟨1, 1, false⟩
      evRedactionR evRedactedMark ⟨7⟩ (by decide) rfl rfl rfl).2.1 rfl rfl rfl (by decide) rfl
      (by decide) rfl,
   (C7_redaction_applied_unless_rejected envRedactedOk inputOld [] 1 ⟨1, 1, false⟩
      evRedactionR evRedactedMark ⟨7⟩ (by decide) rfl rfl rfl).2.2 rfl rfl (by decide) rfl
      (by decide) rfl⟩

/-- C8: for every non-outlier, non-rejected, non-soft-failed event whose
storage reports a non-empty `redactedEventID` — whether of a different
event or of the stored event itself (in which case the redacted projection
`ev1` is used downstream) — the output log of the call is exactly the
kind-dispatch entry (`NewRoomEvent` for `New`, `OldRoomEvent` for `Old`)
followed by one `RedactedEvent` entry carrying the reported ID and the
redaction event. -/
theorem C8_redactionOutput_after_dispatch (env : Env) (input : InputRoomEvent)
    (nids : List EventNID) (n : EventNID) (sae : StateAtEvent) (re ev1 : Event)
    (rid : EventID) (ri : RoomInfo)
    (hcm : (checkForMissingAuthEvents env input.event []).1 = Except.ok ())
    (hauth : env.checkAuthEvents input.event input.authEventIDs = (nids, none))
    (hstore : env.db.storeEvent input.event.event nids false = Except.ok (n, sae, re, rid))
    (hridne : rid ≠ "")
    (hred : (if rid = input.event.event.eventID then env.redactEvent re input.event.event
        else Except.ok input.event.event) = Except.ok ev1)
    (hri : env.db.roomInfo ev1.roomID = Except.ok (some ri))
    (hsnap : sae.beforeStateSnapshotNID ≠ 0)
    (hwred : env.writeOutputEvents ev1.roomID
      [OutputEvent.redactedEvent rid ⟨re, input.event.roomVersion⟩] = Except.ok ()) :
    (input.kind = EventKind.new →
      (env.checkForSoftFail input.event input.stateEventIDs).1 = false →
      env.updateLatestEvents ri sae ev1 input.sendAsServer
        input.transactionID input.hasState = Except.ok () →
      (processRoomEvent env input).2.outputs =
        [OutputEvent.newRoomEvent ev1 input.sendAsServer
          input.transactionID input.hasState,
         OutputEvent.redactedEvent rid ⟨re, input.event.roomVersion⟩] ∧
      (processRoomEvent env input).1 = (ev1.eventID, none)) ∧
    (input.kind = EventKind.old →
      env.writeOutputEvents ev1.roomID
        [OutputEvent.oldRoomEvent input.event] = Except.ok () →
      (processRoomEvent env input).2.outputs =
        [OutputEvent.oldRoomEvent input.event,
         OutputEvent.redactedEvent rid ⟨re, input.event.roomVersion⟩] ∧
      (processRoomEvent env input).1 = (ev1.eventID, none)) := by
  rcases hcmfull : checkForMissingAuthEvents env input.event [] with ⟨res, tcm⟩
  rw [hcmfull] at hcm
  simp only at hcm
  subst hcm
  have hq := checkForMissingAuthEvents_quiet env input.event []
  rw [hcmfull] at hq
  replace hq : tcm.outputs = [] ∧ tcm.setStates = [] ∧ tcm.addStates = [] ∧
      tcm.updatedExtremities = false ∧ tcm.softFailChecked = false := hq
  constructor
  · intro hkind hsfb hupd
    have hproc : processRoomEvent env input = ingest env input := by
      simp [processRoomEvent, hkind]
    rw [hproc]
    unfold ingest stateAndFinish ensureStateSnapshot finishEvent
    simp [hcmfull, hauth, checkForMissingPrevEvents, hkind, hstore, hsfb, hred, hri, hsnap,
      hupd, hridne, hwred, updateLatestEventsTrace,
      writeOutputEventsTrace, Trace.append, Trace.empty, Trace.softFailCheck,
      Trace.storeOne, Trace.read, hq.1]
  · intro hkind hwold
    have hproc : processRoomEvent env input = ingest env input := by
      simp [processRoomEvent, hkind]
    rw [hproc]
    unfold ingest stateAndFinish ensureStateSnapshot finishEvent
    simp [hcmfull, hauth, checkForMissingPrevEvents, hkind, hstore, hred, hri, hsnap,
      hwold, hridne, hwred, updateLatestEventsTrace,
      writeOutputEventsTrace, Trace.append, Trace.empty, Trace.softFailCheck,
      Trace.storeOne, Trace.read, hq.1]

/-- C8 witness: concrete events — one whose storage reports that a
different event `$target` became redacted (for both `New` and `Old` kinds),
and one that is its own redaction target — in every case the output log is
the dispatch entry followed by exactly one `RedactedEvent` entry. -/
theorem C8_redactionOutput_witness :
    ((processRoomEvent envRedactsOther inputNew).2.outputs =
      [OutputEvent.newRoomEvent evPlain "srv" none false,
       OutputEvent.redactedEvent "$target" ⟨evRedactionR, "6"⟩] ∧
     (processRoomEvent envRedactsOther inputNew).1 = (evPlain.eventID, none)) ∧
    ((processRoomEvent envRedactsOther inputOld).2.outputs =
      [OutputEvent.oldRoomEvent ⟨evPlain, "6"⟩,
       OutputEvent.redactedEvent "$target" ⟨evRedactionR, "6"⟩] ∧
     (processRoomEvent envRedactsOther inputOld).1 = (evPlain.eventID, none)) ∧
    ((processRoomEvent envRedactedOk inputNew).2.outputs =
      [OutputEvent.newRoomEvent evRedactedMark "srv" none false,
       OutputEvent.redactedEvent "$e1" ⟨evRedactionR, "6"⟩] ∧
     (processRoomEvent envRedactedOk inputNew).1 = (evRedactedMark.eventID, none)) :=
  ⟨(C8_redactionOutput_after_dispatch envRedactsOther inputNew [] 1 ⟨1, 1, false⟩
      evRedactionR evPlain "$target" ⟨7⟩ (by decide) rfl rfl (by decide) (by decide) rfl
      (by decide) rfl).1 rfl rfl rfl,
   (C8_redactionOutput_after_dispatch envRedactsOther inputOld [] 1 ⟨1, 1, false⟩
      evRedactionR evPlain "$target" ⟨7⟩ (by decide) rfl rfl (by decide) (by decide) rfl
      (by decide) rfl).2 rfl rfl,
   (C8_redactionOutput_after_dispatch envRedactedOk inputNew [] 1 ⟨1, 1, false⟩
      evRedactionR evRedactedMark "$e1" ⟨7⟩ (by decide) rfl rfl (by decide) (by decide) rfl
      (by decide) rfl).1 rfl rfl rfl⟩
